import Mathlib

/-!
Verification of the eyedropper component in `src/index.js`: the color
averaging algorithm (`calcAverageColor`), the string encodings
(`setColors` / `rgbToHex`), the neighborhood sampling (`extractColors`),
and the pick-session state machine (`pickColor` / `stopPicking` /
`cancelPick` / `targetToCanvas` / `componentWillUnmount`), embedded
shallowly as pure Lean functions with an explicit event trace.
-/

namespace EyeDrop

/-- An RGB color sample as returned by the pixel reader: three integer
channels (8-bit in normal operation, but the type does not enforce it,
matching the untyped JS values). -/
structure Color where
  r : ℕ
  g : ℕ
  b : ℕ
  deriving DecidableEq

/-- One iteration of the loop body of `calcAverageColor` (src/index.js
lines 163-172): add the square of each channel to the running total and,
when the index is nonzero, replace each total by `sqrt(total / 2)`.
The three channel accumulators are carried together, exactly as the JS
loop mutates `totalR`, `totalG`, `totalB` in one pass. -/
noncomputable def avgStep (idx : ℕ) (t : ℝ × ℝ × ℝ) (c : Color) : ℝ × ℝ × ℝ :=
  let tR := t.1 + (c.r : ℝ) * (c.r : ℝ)
  let tG := t.2.1 + (c.g : ℝ) * (c.g : ℝ)
  let tB := t.2.2 + (c.b : ℝ) * (c.b : ℝ)
  if idx ≠ 0 then (Real.sqrt (tR / 2), Real.sqrt (tG / 2), Real.sqrt (tB / 2))
  else (tR, tG, tB)

/-- The indexed fold over the sample list performed by
`colors.map((color, index) => ...)` in `calcAverageColor`. -/
noncomputable def avgFold : ℕ → ℝ × ℝ × ℝ → List Color → ℝ × ℝ × ℝ
  | _, t, [] => t
  | idx, t, c :: cs => avgFold (idx + 1) (avgStep idx t c) cs

/-- `calcAverageColor` (src/index.js lines 161-177): run the indexed
accumulation starting from `(0, 0, 0)` and truncate each final total
toward zero (`parseInt`; the totals are always nonnegative, so this is
the floor). -/
noncomputable def calcAverageColor (cs : List Color) : Color :=
  let t := avgFold 0 (0, 0, 0) cs
  ⟨⌊t.1⌋₊, ⌊t.2.1⌋₊, ⌊t.2.2⌋₊⟩

/-- One step of the per-channel running reduction as the spec words it:
`accumulator += sample_channel²; if this is not the first sample,
accumulator = sqrt(accumulator / 2)`. -/
noncomputable def chanStep (idx : ℕ) (acc : ℝ) (v : ℕ) : ℝ :=
  let t := acc + (v : ℝ) * (v : ℝ)
  if idx ≠ 0 then Real.sqrt (t / 2) else t

/-- The per-channel indexed fold of the spec recurrence. -/
noncomputable def chanFold : ℕ → ℝ → List ℕ → ℝ
  | _, acc, [] => acc
  | idx, acc, v :: vs => chanFold (idx + 1) (chanStep idx acc v) vs

/-- The single-channel recurrence of the spec, started at accumulator 0 and
index 0. -/
noncomputable def specChannel (vs : List ℕ) : ℝ := chanFold 0 0 vs

lemma avgFold_eq_chanFold (cs : List Color) :
    ∀ idx t, avgFold idx t cs =
      (chanFold idx t.1 (cs.map Color.r),
       chanFold idx t.2.1 (cs.map Color.g),
       chanFold idx t.2.2 (cs.map Color.b)) := by
  induction cs with
  | nil => intro idx t; simp [avgFold, chanFold]
  | cons c cs ih =>
    intro idx t
    simp only [avgFold, chanFold, List.map_cons]
    rw [ih]
    by_cases h : idx ≠ 0 <;> simp [avgStep, chanStep, h]

lemma floor_sqrt_half_65025 : ⌊Real.sqrt (65025 / 2)⌋₊ = 180 := by
  have h0 : (0:ℝ) ≤ 65025 / 2 := by norm_num
  have h1 : (180:ℝ) ≤ Real.sqrt (65025 / 2) := by
    have h180 : (180:ℝ) = Real.sqrt (180 ^ 2) := (Real.sqrt_sq (by norm_num)).symm
    rw [h180]
    exact Real.sqrt_le_sqrt (by norm_num)
  have h2 : Real.sqrt (65025 / 2) < 181 := by
    have h := Real.sqrt_lt_sqrt h0 (by norm_num : (65025 / 2 : ℝ) < 181 ^ 2)
    calc Real.sqrt (65025 / 2) < Real.sqrt (181 ^ 2) := h
      _ = 181 := Real.sqrt_sq (by norm_num)
  refine (Nat.floor_eq_iff (Real.sqrt_nonneg _)).mpr ⟨by exact_mod_cast h1, ?_⟩
  push_cast
  linarith

/-- C1: for any sample list (in particular any of length at least two),
`calcAverageColor` combines each channel independently by the running
reduction `acc += v²; if not first, acc = sqrt(acc / 2)`, truncating the
final accumulator toward zero; on `[{r:255,g:0,b:0}, {r:0,g:0,b:0}]` the
result is `{r:180,g:0,b:0}`. -/
theorem calcAverageColor_channelwise (cs : List Color) (h : 2 ≤ cs.length) :
    calcAverageColor cs =
      ⟨⌊specChannel (cs.map Color.r)⌋₊, ⌊specChannel (cs.map Color.g)⌋₊,
       ⌊specChannel (cs.map Color.b)⌋₊⟩ ∧
    calcAverageColor [⟨255, 0, 0⟩, ⟨0, 0, 0⟩] = ⟨180, 0, 0⟩ := by
  constructor
  · simp [calcAverageColor, specChannel, avgFold_eq_chanFold]
  · simp only [calcAverageColor, avgFold, avgStep]
    norm_num
    rw [← Real.sqrt_div (by norm_num : (0:ℝ) ≤ 65025) 2]
    exact floor_sqrt_half_65025

theorem calcAverageColor_channelwise_witness :
    2 ≤ ([⟨255, 0, 0⟩, ⟨0, 0, 0⟩] : List Color).length ∧
    calcAverageColor [⟨255, 0, 0⟩, ⟨0, 0, 0⟩] = ⟨180, 0, 0⟩ :=
  ⟨by simp, (calcAverageColor_channelwise [⟨255, 0, 0⟩, ⟨0, 0, 0⟩] (by simp)).2⟩

/-- C2: evaluating `calcAverageColor` at the single sample
`{r:10,g:20,b:30}`: the loop body adds the square of each channel and,
the index being 0, never applies the square root, so the code returns
the per-channel squares `{r:100,g:400,b:900}` rather than the sample
unchanged. -/
theorem calcAverageColor_single_sample_squares :
    calcAverageColor [⟨10, 20, 30⟩] = ⟨100, 400, 900⟩ := by
  simp [calcAverageColor, avgFold, avgStep]
  norm_num

lemma chanFold_bounds (vs : List ℕ) :
    ∀ idx acc, 1 ≤ idx → 0 ≤ acc → acc ≤ 255 → (∀ v ∈ vs, v ≤ 255) →
      0 ≤ chanFold idx acc vs ∧ chanFold idx acc vs ≤ 255 := by
  induction vs with
  | nil => intro idx acc _ h2 h3 _; exact ⟨h2, h3⟩
  | cons v vs ih =>
    intro idx acc h1 h2 h3 hv
    have hvle : (v : ℝ) ≤ 255 := by exact_mod_cast hv v (by simp)
    have hv0 : (0 : ℝ) ≤ (v : ℝ) := Nat.cast_nonneg v
    have hidx : idx ≠ 0 := by omega
    have hstep : chanStep idx acc v = Real.sqrt ((acc + (v:ℝ) * v) / 2) := by
      simp [chanStep, hidx]
    have hb : Real.sqrt ((acc + (v:ℝ) * v) / 2) ≤ 255 := by
      have hsq : (acc + (v:ℝ) * v) / 2 ≤ 255 ^ 2 := by nlinarith
      calc Real.sqrt ((acc + (v:ℝ) * v) / 2) ≤ Real.sqrt (255 ^ 2) :=
            Real.sqrt_le_sqrt hsq
        _ = 255 := Real.sqrt_sq (by norm_num)
    have := ih (idx + 1) (chanStep idx acc v) (by omega)
      (by rw [hstep]; exact Real.sqrt_nonneg _)
      (by rw [hstep]; exact hb)
      (fun w hw => hv w (List.mem_cons_of_mem _ hw))
    simpa [chanFold] using this

lemma specChannel_bounds (vs : List ℕ) (h2 : 2 ≤ vs.length)
    (hv : ∀ v ∈ vs, v ≤ 255) :
    0 ≤ specChannel vs ∧ specChannel vs ≤ 255 := by
  match vs, h2 with
  | v0 :: v1 :: rest, _ =>
    have hv0 : (v0 : ℝ) ≤ 255 := by exact_mod_cast hv v0 (by simp)
    have hv1 : (v1 : ℝ) ≤ 255 := by exact_mod_cast hv v1 (by simp)
    have hn0 : (0 : ℝ) ≤ (v0 : ℝ) := Nat.cast_nonneg v0
    have hn1 : (0 : ℝ) ≤ (v1 : ℝ) := Nat.cast_nonneg v1
    have e1 : specChannel (v0 :: v1 :: rest) =
        chanFold 2 (chanStep 1 (chanStep 0 0 v0) v1) rest := by
      simp [specChannel, chanFold]
    have e2 : chanStep 0 0 v0 = (v0 : ℝ) * v0 := by simp [chanStep]
    have e3 : chanStep 1 ((v0 : ℝ) * v0) v1 =
        Real.sqrt (((v0 : ℝ) * v0 + (v1 : ℝ) * v1) / 2) := by
      simp [chanStep]
    have hb : Real.sqrt (((v0 : ℝ) * v0 + (v1 : ℝ) * v1) / 2) ≤ 255 := by
      have hsq : ((v0 : ℝ) * v0 + (v1 : ℝ) * v1) / 2 ≤ 255 ^ 2 := by nlinarith
      calc Real.sqrt (((v0 : ℝ) * v0 + (v1 : ℝ) * v1) / 2)
          ≤ Real.sqrt (255 ^ 2) := Real.sqrt_le_sqrt hsq
        _ = 255 := Real.sqrt_sq (by norm_num)
    rw [e1, e2, e3]
    exact chanFold_bounds rest 2 _ (by omega) (Real.sqrt_nonneg _) hb
      (fun w hw => hv w (by simp [hw]))

/-- C10: for at least two samples with all channels at most 255, every
channel of the result of `calcAverageColor` is at most 255 (and, being a
natural number, at least 0). -/
theorem calcAverageColor_range (cs : List Color) (h2 : 2 ≤ cs.length)
    (hc : ∀ c ∈ cs, c.r ≤ 255 ∧ c.g ≤ 255 ∧ c.b ≤ 255) :
    (calcAverageColor cs).r ≤ 255 ∧ (calcAverageColor cs).g ≤ 255 ∧
    (calcAverageColor cs).b ≤ 255 := by
  have hr := specChannel_bounds (cs.map Color.r) (by simpa using h2)
    (by intro v hv; obtain ⟨c, hc1, hc2⟩ := List.mem_map.mp hv
        exact hc2 ▸ (hc c hc1).1)
  have hg := specChannel_bounds (cs.map Color.g) (by simpa using h2)
    (by intro v hv; obtain ⟨c, hc1, hc2⟩ := List.mem_map.mp hv
        exact hc2 ▸ (hc c hc1).2.1)
  have hb := specChannel_bounds (cs.map Color.b) (by simpa using h2)
    (by intro v hv; obtain ⟨c, hc1, hc2⟩ := List.mem_map.mp hv
        exact hc2 ▸ (hc c hc1).2.2)
  have hfold := avgFold_eq_chanFold cs 0 (0, 0, 0)
  have hfl : ∀ x : ℝ, x ≤ 255 → ⌊x⌋₊ ≤ 255 := by
    intro x hx
    calc ⌊x⌋₊ ≤ ⌊(255 : ℝ)⌋₊ := Nat.floor_le_floor hx
      _ = 255 := by norm_num
  refine ⟨?_, ?_, ?_⟩ <;>
    simp only [calcAverageColor, hfold, specChannel] at *
  · exact hfl _ hr.2
  · exact hfl _ hg.2
  · exact hfl _ hb.2

theorem calcAverageColor_range_witness :
    2 ≤ ([⟨1, 2, 3⟩, ⟨4, 5, 6⟩, ⟨7, 8, 9⟩] : List Color).length ∧
    (calcAverageColor [⟨1, 2, 3⟩, ⟨4, 5, 6⟩, ⟨7, 8, 9⟩]).r ≤ 255 ∧
    (calcAverageColor [⟨1, 2, 3⟩, ⟨4, 5, 6⟩, ⟨7, 8, 9⟩]).g ≤ 255 ∧
    (calcAverageColor [⟨1, 2, 3⟩, ⟨4, 5, 6⟩, ⟨7, 8, 9⟩]).b ≤ 255 :=
  ⟨by simp, calcAverageColor_range [⟨1, 2, 3⟩, ⟨4, 5, 6⟩, ⟨7, 8, 9⟩]
    (by simp) (by decide)⟩

/-- Hex digit character for a value below 16, lowercase as produced by
JS `Number.prototype.toString(16)`. -/
def hexDigitChar (d : ℕ) : Char :=
  if d < 10 then Char.ofNat (48 + d) else Char.ofNat (87 + d)

/-- Two-hex-digit zero-padded rendering of an 8-bit channel value. -/
def hex2 (n : ℕ) : String :=
  String.mk [hexDigitChar (n / 16 % 16), hexDigitChar (n % 16)]

/-- Modelled from the spec: the helper `src/rgbToHex.js` is imported by
`src/index.js` but its source is not in the repository snapshot. Per the
spec, the hex form zero-pads each argument to two hex digits and
concatenates them in argument order with a leading marker character. -/
def rgbToHex (x y z : ℕ) : String :=
  "#" ++ hex2 x ++ hex2 y ++ hex2 z

/-- The decimal encoding built by `setColors` (src/index.js line 181):
the template literal puts the channels in the order `r`, `b`, `g`. -/
def rgbString (c : Color) : String :=
  "rgb(" ++ toString c.r ++ ", " ++ toString c.b ++ ", " ++ toString c.g ++ ")"

/-- The hex encoding built by `setColors` (src/index.js line 182):
`rgbToHex` is called with the arguments `(r, b, g)`. -/
def hexString (c : Color) : String :=
  rgbToHex c.r c.b c.g

/-- The `{rgb, hex}` pair that `setColors` delivers to the `onChange`
result callback (src/index.js lines 179-187). -/
def setColorsPair (c : Color) : String × String :=
  (rgbString c, hexString c)

/-- C3 counterexample: at the color `{r:0,g:255,b:16}` the hex string
delivered by `setColors` is `#0010ff` — channels in the swapped order
R, B, G — not the concatenation in the order R, G, B (`#00ff10`) that
the claim states. -/
theorem setColors_hex_counterexample :
    (setColorsPair ⟨0, 255, 16⟩).2 = "#0010ff" ∧
    (setColorsPair ⟨0, 255, 16⟩).2 ≠ "#" ++ hex2 0 ++ hex2 255 ++ hex2 16 := by
  constructor <;> decide

/-- C3 amended: the decimal string delivered to the result callback is
exactly the pattern `rgb(R, B, G)`, and the hex string is the leading
marker followed by the zero-padded two-digit channels in the same
swapped order R, B, G. -/
theorem setColors_encodings (c : Color) :
    setColorsPair c =
      ("rgb(" ++ toString c.r ++ ", " ++ toString c.b ++ ", " ++
         toString c.g ++ ")",
       "#" ++ hex2 c.r ++ hex2 c.b ++ hex2 c.g) := rfl

/-- The two configuration errors thrown at the top of `extractColors`
(src/index.js lines 139 and 142). -/
inductive PickError
  | evenPixelAmount
  | badUnit
  deriving DecidableEq

/-- The `pickRadius` prop: a unit string and an amount. The unit is
kept as a string because the runtime check compares strings and has an
else branch for any other value. -/
structure PickRadius where
  unit : String
  amount : ℕ
  deriving DecidableEq

/-- The radius computation and validation at the top of `extractColors`
(src/index.js lines 130-143): unit `radius` gives
`(amount, -amount - 1)`; unit `pixel` requires an odd amount and gives
`((amount-1)/2, -((amount-1)/2) - 1)`; anything else throws. -/
def computeRadii (unit : String) (amount : ℕ) : Except PickError (ℤ × ℤ) :=
  if unit = "radius" then
    Except.ok ((amount : ℤ), -(amount : ℤ) - 1)
  else if unit = "pixel" then
    if amount % 2 ≠ 0 then
      Except.ok (((amount : ℤ) - 1) / 2, -(((amount : ℤ) - 1) / 2) - 1)
    else Except.error PickError.evenPixelAmount
  else Except.error PickError.badUnit

/-- The values taken by the loop counter
`for (let i = maxR; i !== minR; i--)`: `maxR` down to `minR + 1`
(empty when `minR ≥ maxR`). -/
def countDown (maxR minR : ℤ) : List ℤ :=
  (List.range (maxR - minR).toNat).map (fun (i : ℕ) => maxR - (i : ℤ))

/-- The full nested enumeration of `(cx - x, cy - y)` over both loops of
`extractColors`, without the negative-coordinate skip. -/
def rawGrid (maxR minR cx cy : ℤ) : List (ℤ × ℤ) :=
  (countDown maxR minR).flatMap (fun x =>
    (countDown maxR minR).map (fun y => (cx - x, cy - y)))

/-- The sample coordinates collected by the nested loops of
`extractColors` (src/index.js lines 148-157): each `(cx - x, cy - y)`
in iteration order, skipping any pair with a negative component. -/
def samplePoints (maxR minR cx cy : ℤ) : List (ℤ × ℤ) :=
  (countDown maxR minR).flatMap (fun x =>
    (countDown maxR minR).filterMap (fun y =>
      if 0 ≤ cx - x ∧ 0 ≤ cy - y then some (cx - x, cy - y) else none))

/-- The two listener callbacks registered on `document`. -/
inductive Handler
  | targetToCanvas
  | handleKeydown
  deriving DecidableEq

/-- The ambient document state the component mutates: the registered
(event type, handler) pairs and `document.body.style.cursor`. -/
structure DOMState where
  listeners : List (String × Handler)
  cursor : String
  deriving DecidableEq

/-- `document.addEventListener`: registering an already-attached
(type, handler) pair has no effect. -/
def addListener (d : DOMState) (t : String) (h : Handler) : DOMState :=
  if (t, h) ∈ d.listeners then d
  else { d with listeners := d.listeners ++ [(t, h)] }

/-- `document.removeEventListener`: detaches the (type, handler) pair
if attached, otherwise does nothing. -/
def removeListener (d : DOMState) (t : String) (h : Handler) : DOMState :=
  { d with listeners := d.listeners.filter (fun q => q ≠ (t, h)) }

/-- The session state of the component: the `picking` flag together with the
document state it owns. -/
structure CompState where
  picking : Bool
  dom : DOMState
  deriving DecidableEq

/-- Default `cursorActive` prop value (src/index.js line 52). -/
def cursorActive : String := "copy"

/-- Default `cursorInactive` prop value (src/index.js line 53). -/
def cursorInactive : String := "auto"

/-- Observable events of a session: the six optional lifecycle hooks,
the rasterization request, each pixel read, the result callback, and a
thrown configuration error. -/
inductive Event
  | onInit
  | pickStart
  | pickClick
  | pickStop
  | pickCancel
  | pickEnd
  | rasterize
  | sample (q : ℤ × ℤ)
  | report (rgb hex : String)
  | errorE (e : PickError)
  deriving DecidableEq

/-- `componentDidMount` (src/index.js lines 57-60): fires `onInit`. -/
def componentDidMount (s : CompState) : CompState × List Event :=
  (s, [Event.onInit])

/-- `pickColor` (src/index.js lines 65-74): fire `onPickStart`, set the
active cursor, attach the click and keydown listeners, set `picking`. -/
def pickColor (s : CompState) : CompState × List Event :=
  let d1 := { s.dom with cursor := cursorActive }
  let d2 := addListener d1 "click" Handler.targetToCanvas
  let d3 := addListener d2 "keydown" Handler.handleKeydown
  ({ picking := true, dom := d3 }, [Event.pickStart])

/-- `stopPicking` (src/index.js lines 92-99): detach both listeners,
restore the inactive cursor, fire `onPickStop` (unconditionally — there
is no guard on `picking`), clear `picking`. -/
def stopPicking (s : CompState) : CompState × List Event :=
  let d1 := removeListener s.dom "click" Handler.targetToCanvas
  let d2 := removeListener d1 "keydown" Handler.handleKeydown
  ({ picking := false, dom := { d2 with cursor := cursorInactive } },
   [Event.pickStop])

/-- `cancelPick` (src/index.js lines 82-90): only acts when `picking`
is set; fires `onPickCancel` and then runs `stopPicking`. -/
def cancelPick (s : CompState) : CompState × List Event :=
  if s.picking then
    let r := stopPicking s
    (r.1, Event.pickCancel :: r.2)
  else (s, [])

/-- `handleKeydown` (src/index.js lines 76-80): cancels on Escape. -/
def handleKeydown (key : String) (s : CompState) : CompState × List Event :=
  if key = "Escape" then cancelPick s else (s, [])

/-- `componentWillUnmount` (src/index.js lines 61-63): removes a
`keypress` registration of the keydown handler — note the event type
does not match the `keydown` registration made by `pickColor`. -/
def componentWillUnmount (s : CompState) : CompState :=
  { s with dom := removeListener s.dom "keypress" Handler.handleKeydown }

/-- `setColors` as a session step (src/index.js lines 179-187): deliver
the `{rgb, hex}` pair to `onChange` and fire `onPickEnd`. -/
def setColors (c : Color) (s : CompState) : CompState × List Event :=
  (s, [Event.report (rgbString c) (hexString c), Event.pickEnd])

/-- `extractColor` (src/index.js lines 122-125): read the single pixel
at the click offset and report it. -/
def extractColor (read : ℤ → ℤ → Color) (cx cy : ℤ) (s : CompState) :
    CompState × List Event :=
  setColors (read cx cy) s

/-- `extractColors` (src/index.js lines 127-159): validate the
`pickRadius` spec, enumerate the neighborhood, read each pixel, and
aggregate with `calcAverageColor`; a validation failure throws before
any pixel is read. -/
noncomputable def extractColors (pr : PickRadius) (read : ℤ → ℤ → Color)
    (cx cy : ℤ) (s : CompState) : CompState × List Event :=
  match computeRadii pr.unit pr.amount with
  | Except.error e => (s, [Event.errorE e])
  | Except.ok (maxR, minR) =>
    let pts := samplePoints maxR minR cx cy
    let r := setColors (calcAverageColor (pts.map fun q => read q.1 q.2)) s
    (r.1, pts.map Event.sample ++ r.2)

/-- `targetToCanvas` (src/index.js lines 101-120) together with its
asynchronous continuation, in event-loop order: the `html2canvas` call
(rasterize), the `onPickClick` hook, the synchronous `stopPicking`
teardown, and then the continuation that extracts and reports the
color (or throws on an invalid `pickRadius` spec). -/
noncomputable def targetToCanvas (pr : Option PickRadius)
    (read : ℤ → ℤ → Color) (cx cy : ℤ) (s : CompState) :
    CompState × List Event :=
  let r1 := stopPicking s
  let r2 := match pr with
    | some p => extractColors p read cx cy r1.1
    | none => extractColor read cx cy r1.1
  (r2.1, Event.rasterize :: Event.pickClick :: (r1.2 ++ r2.2))

/-- A full pick: mount, arm via `pickColor`, then a click with its
asynchronous continuation. -/
noncomputable def fullPick (pr : Option PickRadius) (read : ℤ → ℤ → Color)
    (cx cy : ℤ) (s : CompState) : CompState × List Event :=
  let r1 := componentDidMount s
  let r2 := pickColor r1.1
  let r3 := targetToCanvas pr read cx cy r2.1
  (r3.1, r1.2 ++ r2.2 ++ r3.2)

/-- Whether an event is one of the six lifecycle hooks. -/
def isHook : Event → Bool
  | .onInit => true
  | .pickStart => true
  | .pickClick => true
  | .pickStop => true
  | .pickCancel => true
  | .pickEnd => true
  | _ => false

/-- The subsequence of lifecycle-hook events of a trace. -/
def hookEvents (t : List Event) : List Event := t.filter isHook

/-- A freshly mounted component: not picking, no listeners attached. -/
def initialState : CompState := ⟨false, ⟨[], "auto"⟩⟩

lemma mem_countDown {maxR minR x : ℤ} :
    x ∈ countDown maxR minR ↔ minR < x ∧ x ≤ maxR := by
  unfold countDown
  constructor
  · intro hx
    obtain ⟨i, hi, hxe⟩ := List.mem_map.mp hx
    have hilt : i < (maxR - minR).toNat := List.mem_range.mp hi
    omega
  · rintro ⟨h1, h2⟩
    refine List.mem_map.mpr ⟨(maxR - x).toNat, List.mem_range.mpr ?_, ?_⟩ <;>
      omega

lemma filterMap_if_eq_filter {α β : Type} (f : α → β) (p : β → Prop)
    [DecidablePred p] (l : List α) :
    (l.filterMap fun a => if p (f a) then some (f a) else none) =
      (l.map f).filter (fun q => decide (p q)) := by
  induction l with
  | nil => rfl
  | cons a l ih =>
    by_cases h : p (f a) <;>
      simp [List.filterMap_cons, List.filter_cons, h, ih]

lemma filter_flatMap {α β : Type} (l : List α) (f : α → List β)
    (p : β → Bool) :
    (l.flatMap f).filter p = l.flatMap (fun a => (f a).filter p) := by
  induction l with
  | nil => rfl
  | cons a l ih => simp [List.flatMap_cons, List.filter_append, ih]

lemma samplePoints_eq_filter (maxR minR cx cy : ℤ) :
    samplePoints maxR minR cx cy =
      (rawGrid maxR minR cx cy).filter
        (fun q => decide (0 ≤ q.1) && decide (0 ≤ q.2)) := by
  simp only [samplePoints, rawGrid]
  rw [filter_flatMap]
  congr 1
  funext x
  have h := filterMap_if_eq_filter (fun y => (cx - x, cy - y))
    (fun q : ℤ × ℤ => 0 ≤ q.1 ∧ 0 ≤ q.2) (countDown maxR minR)
  simpa using h

lemma mem_rawGrid {maxR minR cx cy : ℤ} {q : ℤ × ℤ} :
    q ∈ rawGrid maxR minR cx cy ↔
      cx - maxR ≤ q.1 ∧ q.1 < cx - minR ∧
      cy - maxR ≤ q.2 ∧ q.2 < cy - minR := by
  obtain ⟨q1, q2⟩ := q
  simp only [rawGrid, List.mem_flatMap, List.mem_map, mem_countDown,
    Prod.mk.injEq]
  constructor
  · rintro ⟨x, ⟨hx1, hx2⟩, y, ⟨hy1, hy2⟩, rfl, rfl⟩
    refine ⟨by omega, by omega, by omega, by omega⟩
  · rintro ⟨h1, h2, h3, h4⟩
    exact ⟨cx - q1, ⟨by omega, by omega⟩, cy - q2, ⟨by omega, by omega⟩,
      by omega, by omega⟩

/-- C5: for a valid `pickRadius` spec the radii are computed as the
spec states (`pixel`: `maxRadius = (amount-1)/2`,
`minRadius = -maxRadius - 1`; `radius`: `maxRadius = amount`,
`minRadius = -amount - 1`); the collected sample list is the full
descending-order grid enumeration with exactly the
negative-component coordinates skipped, order preserved; and for unit
`pixel` with amount 5 (radii `(2, -3)`) a coordinate is sampled exactly
when it lies in the 5×5 square centered on the click and has no
negative component. -/
theorem extractColors_enumeration (amount : ℕ) (maxR minR cx cy : ℤ) :
    (amount % 2 = 1 →
      computeRadii "pixel" amount =
        Except.ok (((amount : ℤ) - 1) / 2, -(((amount : ℤ) - 1) / 2) - 1)) ∧
    computeRadii "radius" amount =
      Except.ok ((amount : ℤ), -(amount : ℤ) - 1) ∧
    samplePoints maxR minR cx cy =
      (rawGrid maxR minR cx cy).filter
        (fun q => decide (0 ≤ q.1) && decide (0 ≤ q.2)) ∧
    (∀ q : ℤ × ℤ, q ∈ samplePoints 2 (-3) cx cy ↔
      (0 ≤ q.1 ∧ 0 ≤ q.2 ∧ cx - 2 ≤ q.1 ∧ q.1 ≤ cx + 2 ∧
       cy - 2 ≤ q.2 ∧ q.2 ≤ cy + 2)) := by
  refine ⟨?_, ?_, samplePoints_eq_filter maxR minR cx cy, ?_⟩
  · intro hodd
    have : amount % 2 ≠ 0 := by omega
    simp [computeRadii, this]
  · simp [computeRadii]
  · intro q
    rw [samplePoints_eq_filter, List.mem_filter]
    simp only [mem_rawGrid, Bool.and_eq_true, decide_eq_true_eq]
    omega

theorem extractColors_enumeration_witness :
    5 % 2 = 1 ∧ computeRadii "pixel" 5 = Except.ok (2, -3) ∧
    computeRadii "radius" 2 = Except.ok (2, -3) ∧
    (0, 0) ∈ samplePoints 2 (-3) 1 1 := by
  refine ⟨by norm_num, ?_, ?_, ?_⟩
  · have h := (extractColors_enumeration 5 2 (-3) 1 1).1 (by norm_num)
    simpa using h
  · have h := (extractColors_enumeration 2 2 (-3) 1 1).2.1
    simpa using h
  · exact ((extractColors_enumeration 5 2 (-3) 1 1).2.2.2
      (0, 0)).mpr (by norm_num)

/-- C6: the cancel-key listener leaks across unmount: `pickColor`
registers `handleKeydown` for the `keydown` event type, but
`componentWillUnmount` removes a `keypress` registration, so after
arming and unmounting (with no pick completed) the `keydown` listener
is still attached. -/
theorem unmount_leaves_keydown_listener :
    ("keydown", Handler.handleKeydown) ∈
      (componentWillUnmount (pickColor initialState).1).dom.listeners := by
  decide

lemma two_filter_idem {α : Type} (p q : α → Bool) (l : List α) :
    (((l.filter p).filter q).filter p).filter q = (l.filter p).filter q := by
  simp only [List.filter_filter]
  apply List.filter_congr
  intro a _
  cases p a <;> cases q a <;> rfl

/-- C7 counterexample: `stopPicking` has no guard on `picking`: called
from the idle initial state it fires the `onPickStop` hook, and called
a second time in a row it fires the hook again — neither call is a
no-op on the hooks. -/
theorem stopPicking_double_hook_counterexample :
    (stopPicking initialState).2 = [Event.pickStop] ∧
    (stopPicking (stopPicking initialState).1).2 = [Event.pickStop] :=
  ⟨rfl, rfl⟩

/-- C7 amended: `stopPicking` never throws and is idempotent on the
session state — a second call returns exactly the state of the first,
and the resulting state is always disarmed — but it fires the
`onPickStop` hook on every call, including calls made while the session
is not armed. -/
theorem stopPicking_state_idempotent (s : CompState) :
    (stopPicking s).2 = [Event.pickStop] ∧
    (stopPicking (stopPicking s).1).1 = (stopPicking s).1 ∧
    (stopPicking s).1.picking = false := by
  refine ⟨rfl, ?_, rfl⟩
  simp only [stopPicking, removeListener]
  congr 1
  congr 1
  exact two_filter_idem _ _ _

/-- C8: `cancelPick` while not picking returns the state unchanged with
no hook fired; while picking it fires `onPickCancel` exactly once
followed by the `stopPicking` teardown (same resulting state as
`stopPicking`), leaves the session disarmed, and reports no color. -/
theorem cancelPick_cases (s : CompState) :
    (s.picking = false → cancelPick s = (s, [])) ∧
    (s.picking = true →
      (cancelPick s).2 = [Event.pickCancel, Event.pickStop] ∧
      (cancelPick s).1 = (stopPicking s).1 ∧
      (cancelPick s).1.picking = false ∧
      ∀ r h, Event.report r h ∉ (cancelPick s).2) := by
  constructor
  · intro h; simp [cancelPick, h]
  · intro h
    refine ⟨?_, ?_, ?_, ?_⟩ <;> simp [cancelPick, h, stopPicking]

theorem cancelPick_cases_witness :
    (pickColor initialState).1.picking = true ∧
    (cancelPick (pickColor initialState).1).2 =
      [Event.pickCancel, Event.pickStop] :=
  ⟨rfl, ((cancelPick_cases (pickColor initialState).1).2 rfl).1⟩

lemma filter_isHook_sample_map (pts : List (ℤ × ℤ)) :
    (pts.map Event.sample).filter isHook = [] := by
  induction pts with
  | nil => rfl
  | cons q pts ih =>
    simp [List.filter_cons, show isHook (Event.sample q) = false from rfl, ih]

/-- C9: across a full pick whose `pickRadius` spec is absent or valid,
the lifecycle hooks fire in exactly the order
init → pick-start → pick-click → pick-stop → pick-end. -/
theorem fullPick_hook_order (pr : Option PickRadius) (read : ℤ → ℤ → Color)
    (cx cy : ℤ) (s : CompState)
    (h : pr = none ∨ ∃ p v, pr = some p ∧
      computeRadii p.unit p.amount = Except.ok v) :
    hookEvents (fullPick pr read cx cy s).2 =
      [Event.onInit, Event.pickStart, Event.pickClick, Event.pickStop,
       Event.pickEnd] := by
  rcases h with rfl | ⟨p, v, rfl, hok⟩
  · simp [fullPick, componentDidMount, pickColor, targetToCanvas,
      stopPicking, extractColor, setColors, hookEvents, List.filter_cons,
      List.filter_append, isHook]
  · obtain ⟨maxR, minR⟩ := v
    simp [fullPick, componentDidMount, pickColor, targetToCanvas,
      stopPicking, extractColors, hok, setColors, hookEvents,
      List.filter_cons, List.filter_append, filter_isHook_sample_map,
      isHook]

theorem fullPick_hook_order_witness :
    hookEvents (fullPick none (fun _ _ => ⟨7, 7, 7⟩) 3 4 initialState).2 =
      [Event.onInit, Event.pickStart, Event.pickClick, Event.pickStop,
       Event.pickEnd] :=
  fullPick_hook_order none (fun _ _ => ⟨7, 7, 7⟩) 3 4 initialState
    (Or.inl rfl)

/-- C4 counterexample: with the invalid spec unit=`pixel`, amount=4,
the click pipeline still performs the rasterization: the `html2canvas`
call precedes the validation, which only runs in the asynchronous
continuation, so the trace of the failing pick starts with the
rasterize event and only then reaches the configuration error. -/
theorem invalid_spec_rasterizes_counterexample :
    (targetToCanvas (some ⟨"pixel", 4⟩) (fun _ _ => ⟨0, 0, 0⟩) 5 5
        (pickColor initialState).1).2 =
      [Event.rasterize, Event.pickClick, Event.pickStop,
       Event.errorE PickError.evenPixelAmount] := by
  decide

/-- C4 amended: for every invalid `pickRadius` spec (unit neither
`pixel` nor `radius`, or unit `pixel` with an even amount) a pick fails
with a configuration error before any pixel sample is read — but only
in the asynchronous continuation, after the rasterization has been
requested: the click trace is rasterize, click, stop, error, with no
sample event. Unit `pixel` with amount 4 fails this way, while amount
5 validates successfully with radii `(2, -3)`. -/
theorem invalid_spec_fails_before_sampling (u : String) (amount : ℕ)
    (h : (u ≠ "pixel" ∧ u ≠ "radius") ∨ (u = "pixel" ∧ amount % 2 = 0))
    (read : ℤ → ℤ → Color) (cx cy : ℤ) (s : CompState) :
    (∃ e, (targetToCanvas (some ⟨u, amount⟩) read cx cy s).2 =
      [Event.rasterize, Event.pickClick, Event.pickStop, Event.errorE e]) ∧
    (∀ q, Event.sample q ∉
      (targetToCanvas (some ⟨u, amount⟩) read cx cy s).2) ∧
    computeRadii "pixel" 5 = Except.ok (2, -3) := by
  have herr : ∃ e, computeRadii u amount = Except.error e := by
    rcases h with ⟨h1, h2⟩ | ⟨h1, h2⟩
    · exact ⟨PickError.badUnit, by simp [computeRadii, h1, h2]⟩
    · exact ⟨PickError.evenPixelAmount, by simp [computeRadii, h1, h2]⟩
  obtain ⟨e, he⟩ := herr
  refine ⟨⟨e, ?_⟩, ?_, by rfl⟩
  · simp [targetToCanvas, extractColors, he, stopPicking]
  · intro q
    simp [targetToCanvas, extractColors, he, stopPicking]

theorem invalid_spec_fails_before_sampling_witness :
    ((("pixel" : String) ≠ "pixel" ∧ ("pixel" : String) ≠ "radius") ∨
      (("pixel" : String) = "pixel" ∧ 4 % 2 = 0)) ∧
    Event.sample (0, 0) ∉
      (targetToCanvas (some ⟨"pixel", 4⟩) (fun _ _ => ⟨1, 1, 1⟩) 2 3
        initialState).2 ∧
    computeRadii "pixel" 5 = Except.ok (2, -3) :=
  ⟨Or.inr ⟨rfl, rfl⟩,
   (invalid_spec_fails_before_sampling "pixel" 4 (Or.inr ⟨rfl, rfl⟩)
      (fun _ _ => ⟨1, 1, 1⟩) 2 3 initialState).2.1 (0, 0),
   (invalid_spec_fails_before_sampling "pixel" 4 (Or.inr ⟨rfl, rfl⟩)
      (fun _ _ => ⟨1, 1, 1⟩) 2 3 initialState).2.2⟩

end EyeDrop
